import Mathlib

/-!
Shallow embedding of `src/jc/parsers/date.py` (jc `date` command output
parser).  The two source functions are `process` (schema normalizer) and
`parse` (tokenizer + dispatcher).  Python dictionaries with the fixed key
sets produced by the tokenizer are modelled as structures; exceptions
(IndexError, KeyError, ValueError) are modelled as `none`; Python `int(...)`
is modelled by `pyInt`; `datetime(...)` construction and validation is
modelled by `mkDatetime`, and its UTC POSIX timestamp by `utcTimestamp`.
The naive `epoch` value of `datetime.timestamp()` depends on the host local
offset; it is modelled by an explicit offset parameter `off` (seconds east
of UTC), so `epoch = utcTimestamp - off`.
-/

/-- The raw field mapping built by the tokenizer section of `parse`
(`raw_output` in the source): all values are strings; `period` is present
only in the 12-hour branch. -/
structure RawFields where
  year : String
  month : String
  day : String
  weekday : String
  hour : String
  minute : String
  second : String
  timezone : String
  period : Option String := none
deriving DecidableEq, Repr

/-- The processed record built by `process` (`date_obj` in the source).
`epoch_utc = none` models the key being absent. -/
structure StructuredRecord where
  year : Int
  month_num : Nat
  day : Int
  hour : Int
  hour_24 : Int
  minute : Int
  second : Int
  period : Option String
  month : String
  weekday : String
  weekday_num : Nat
  timezone : String
  epoch : Int
  epoch_utc : Option Int
deriving DecidableEq, Repr

/-- Python `str.lower()` (ASCII range; the fields compared by the source
are ASCII). -/
def lowerStr (s : String) : String := ⟨s.toList.map Char.toLower⟩

/-- Python `str.upper()` (ASCII range). -/
def upperStr (s : String) : String := ⟨s.toList.map Char.toUpper⟩

/-- Core digit loop of Python `int(str)`: consumes decimal digits with
single underscores allowed between digits.  `acc` holds the value of the
digits consumed so far; the first character was already a digit. -/
def pyDigits : Nat → List Char → Option Nat
  | acc, [] => some acc
  | acc, c :: rest =>
    if c.isDigit then pyDigits (acc * 10 + (c.toNat - 48)) rest
    else if c = '_' then
      match rest with
      | [] => none
      | d :: _ => if d.isDigit then pyDigits acc rest else none
    else none

/-- Digit sequence of Python `int(str)`: nonempty, starts with a digit. -/
def pyDigitsStart : List Char → Option Nat
  | [] => none
  | c :: rest => if c.isDigit then pyDigits (c.toNat - 48) rest else none

/-- Strip leading and trailing whitespace characters. -/
def stripWs (cs : List Char) : List Char :=
  ((cs.dropWhile Char.isWhitespace).reverse.dropWhile Char.isWhitespace).reverse

/-- Python `int(str)` in base 10: optional surrounding whitespace, optional
single leading sign, then decimal digits (underscores allowed between
digits); anything else raises ValueError (modelled as `none`). -/
def pyInt (s : String) : Option Int :=
  match stripWs s.toList with
  | '+' :: rest => (pyDigitsStart rest).map (fun n => (n : Int))
  | '-' :: rest => (pyDigitsStart rest).map (fun n => -(n : Int))
  | cs => (pyDigitsStart cs).map (fun n => (n : Int))

/-- `month_map` from `process`: ISO 8601 month numberings; a missing key
raises KeyError (modelled as `none`). -/
def month_map : String → Option Nat
  | "Jan" => some 1
  | "Feb" => some 2
  | "Mar" => some 3
  | "Apr" => some 4
  | "May" => some 5
  | "Jun" => some 6
  | "Jul" => some 7
  | "Aug" => some 8
  | "Sep" => some 9
  | "Oct" => some 10
  | "Nov" => some 11
  | "Dec" => some 12
  | _ => none

/-- `weekday_map` from `process`: ISO 8601 weekday numberings. -/
def weekday_map : String → Option Nat
  | "Mon" => some 1
  | "Tue" => some 2
  | "Wed" => some 3
  | "Thu" => some 4
  | "Fri" => some 5
  | "Sat" => some 6
  | "Sun" => some 7
  | _ => none

/-- Proleptic Gregorian leap year, as in Python's `datetime` module. -/
def isLeap (y : Nat) : Bool := y % 4 = 0 && (y % 100 ≠ 0 || y % 400 = 0)

/-- Days in a month of the proleptic Gregorian calendar. -/
def daysInMonth (y m : Nat) : Nat :=
  if m = 2 then (if isLeap y then 29 else 28)
  else if m = 4 ∨ m = 6 ∨ m = 9 ∨ m = 11 then 30
  else 31

/-- A validated `datetime.datetime` value (date and time components only;
the tzinfo distinction is carried by how the timestamp is computed). -/
structure Datetime where
  year : Nat
  month : Nat
  day : Nat
  hour : Nat
  minute : Nat
  second : Nat
deriving DecidableEq, Repr

/-- `datetime(year, month, day, hour, minute, second)`: validates
`MINYEAR ≤ year ≤ MAXYEAR`, `1 ≤ month ≤ 12`, `1 ≤ day ≤ days in month`,
`0 ≤ hour ≤ 23`, `0 ≤ minute ≤ 59`, `0 ≤ second ≤ 59`; raises ValueError
(`none`) otherwise. -/
def mkDatetime (y : Int) (mo : Nat) (d h mi s : Int) : Option Datetime :=
  if 1 ≤ y ∧ y ≤ 9999 ∧ 1 ≤ mo ∧ mo ≤ 12 ∧
     1 ≤ d ∧ d ≤ (daysInMonth y.toNat mo : Int) ∧
     0 ≤ h ∧ h ≤ 23 ∧ 0 ≤ mi ∧ mi ≤ 59 ∧ 0 ≤ s ∧ s ≤ 59
  then some ⟨y.toNat, mo, d.toNat, h.toNat, mi.toNat, s.toNat⟩
  else none

/-- Days before January 1 of year `y` since the epoch of the proleptic
Gregorian ordinal (ordinal 1 = 0001-01-01), as in `datetime`. -/
def daysBeforeYear (y : Nat) : Nat :=
  (y - 1) * 365 + (y - 1) / 4 - (y - 1) / 100 + (y - 1) / 400

/-- Days in year `y` strictly before the first day of month `m`. -/
def daysBeforeMonth (y m : Nat) : Nat :=
  (List.range (m - 1)).foldl (fun acc i => acc + daysInMonth y (i + 1)) 0

/-- `datetime.toordinal()`: proleptic Gregorian ordinal of the date. -/
def toOrdinal (dt : Datetime) : Nat :=
  daysBeforeYear dt.year + daysBeforeMonth dt.year dt.month + dt.day

/-- POSIX timestamp of the components interpreted at UTC
(`datetime(..., tzinfo=timezone.utc).timestamp()`); 719163 is the ordinal
of 1970-01-01. -/
def utcTimestamp (dt : Datetime) : Int :=
  ((toOrdinal dt : Int) - 719163) * 86400 +
    (dt.hour : Int) * 3600 + (dt.minute : Int) * 60 + (dt.second : Int)

/-- The 12-vs-24-hour fix of `process` (its `dt_hour_24` after the
`if 'period' in proc_data:` block), as a function of the parsed hour and
the raw `period` field. -/
def hour24 (hour : Int) : Option String → Int
  | none => hour
  | some p =>
    if p = "" then hour
    else
      let h1 := if lowerStr p = "pm" then (if hour + 12 > 23 then 12 else hour + 12) else hour
      if lowerStr p = "am" ∧ h1 = 12 then 0 else h1

/-- `process(proc_data)` on a non-empty raw mapping, with the host local
offset `off` (seconds east of UTC) made explicit: the naive
`datetime(...).timestamp()` is `utcTimestamp - off`.  `none` models a
raised exception (ValueError or KeyError). -/
def process (off : Int) (pd : RawFields) : Option StructuredRecord := do
  let dt_year ← pyInt pd.year
  let dt_month ← month_map pd.month
  let dt_day ← pyInt pd.day
  let dt_hour ← pyInt pd.hour
  let dt_minute ← pyInt pd.minute
  let dt_second ← pyInt pd.second
  let dt_hour_24 := hour24 dt_hour pd.period
  let epoch_dt ← mkDatetime dt_year dt_month dt_day dt_hour_24 dt_minute dt_second
  let wd_num ← weekday_map pd.weekday
  pure {
    year := dt_year
    month_num := dt_month
    day := dt_day
    hour := dt_hour
    hour_24 := dt_hour_24
    minute := dt_minute
    second := dt_second
    period := pd.period.map upperStr
    month := pd.month
    weekday := pd.weekday
    weekday_num := wd_num
    timezone := pd.timezone
    epoch := utcTimestamp epoch_dt - off
    epoch_utc := if pd.timezone = "UTC" then some (utcTimestamp epoch_dt) else none }

/-- `data.replace(':', ' ')` at the character level. -/
def colonToSpace (cs : List Char) : List Char :=
  cs.map (fun c => if c = ':' then ' ' else c)

/-- Python `str.split()` with no separator: split on runs of whitespace,
producing no empty tokens.  `cur` accumulates the current word reversed. -/
def wordsAux : List Char → List Char → List String
  | [], [] => []
  | [], cur => [⟨cur.reverse⟩]
  | c :: rest, cur =>
    if c.isWhitespace then
      match cur with
      | [] => wordsAux rest []
      | _ => (⟨cur.reverse⟩ : String) :: wordsAux rest []
    else wordsAux rest (c :: cur)

/-- Preprocessing in `parse`: `data.replace(':', ' ')` then `data.split()`
(split on whitespace runs, dropping empty tokens). -/
def splitTokens (data : String) : List String :=
  wordsAux (colonToSpace data.toList) []

/-- The layout-detection condition of `parse`:
`len(split_data) == 9 and ('AM' in split_data or 'am' in split_data or
'PM' in split_data or 'pm' in split_data)`. -/
def twelveHourCond (ts : List String) : Prop :=
  ts.length = 9 ∧ ("AM" ∈ ts ∨ "am" ∈ ts ∨ "PM" ∈ ts ∨ "pm" ∈ ts)

instance (ts : List String) : Decidable (twelveHourCond ts) := by
  unfold twelveHourCond; infer_instance

/-- The token-to-field extraction section of `parse` (building
`raw_output` from `split_data`); `none` models an IndexError from a
positional subscript on a too-short token list. -/
def tokenize (ts : List String) : Option RawFields :=
  if twelveHourCond ts then do
    let y ← ts[8]?
    let mo ← ts[1]?
    let d ← ts[2]?
    let w ← ts[0]?
    let h ← ts[3]?
    let mi ← ts[4]?
    let s ← ts[5]?
    let p ← ts[6]?
    let tz ← ts[7]?
    pure ⟨y, mo, d, w, h, mi, s, tz, some p⟩
  else do
    let y ← ts[7]?
    let mo ← ts[1]?
    let d ← ts[2]?
    let w ← ts[0]?
    let h ← ts[3]?
    let mi ← ts[4]?
    let s ← ts[5]?
    let tz ← ts[6]?
    pure ⟨y, mo, d, w, h, mi, s, tz, none⟩

/-- Modelled from the spec: `jc.utils.has_data` is not under `src/` (only
its caller is); the spec says blank/whitespace-only input is the "no data"
case, so `hasData` holds iff the input has a non-whitespace character. -/
def hasData (data : String) : Bool :=
  data.toList.any (fun c => !c.isWhitespace)

/-- Outcome of `parse` in processed (non-raw) mode. -/
inductive ParseOut where
  | error
  | empty
  | record (r : StructuredRecord)
deriving DecidableEq, Repr

/-- Outcome of `parse` in raw mode. -/
inductive RawOut where
  | error
  | empty
  | fields (rf : RawFields)
deriving DecidableEq, Repr

/-- `parse(data, raw=False)` with explicit local offset `off`:
blank input yields the empty mapping (`process({}) == {}`), otherwise the
tokenizer output is processed; a raised exception is `.error`. -/
def parse (off : Int) (data : String) : ParseOut :=
  if hasData data then
    match tokenize (splitTokens data) with
    | none => .error
    | some rf =>
      match process off rf with
      | none => .error
      | some r => .record r
  else .empty

/-- `parse(data, raw=True)`: the raw mapping is returned unprocessed. -/
def parseRaw (data : String) : RawOut :=
  if hasData data then
    match tokenize (splitTokens data) with
    | none => .error
    | some rf => .fields rf
  else .empty

/-! ## Helper lemmas -/

/-- Inversion principle for a successful run of `process`: every output
record arises from successfully parsed and validated components. -/
theorem process_eq_some {off : Int} {pd : RawFields} {r : StructuredRecord}
    (hr : process off pd = some r) :
    ∃ (dy : Int) (mo : Nat) (dd dh dmi ds : Int) (dt : Datetime) (wd : Nat),
      pyInt pd.year = some dy ∧ month_map pd.month = some mo ∧
      pyInt pd.day = some dd ∧ pyInt pd.hour = some dh ∧
      pyInt pd.minute = some dmi ∧ pyInt pd.second = some ds ∧
      mkDatetime dy mo dd (hour24 dh pd.period) dmi ds = some dt ∧
      weekday_map pd.weekday = some wd ∧
      r = ⟨dy, mo, dd, dh, hour24 dh pd.period, dmi, ds, pd.period.map upperStr,
           pd.month, pd.weekday, wd, pd.timezone, utcTimestamp dt - off,
           if pd.timezone = "UTC" then some (utcTimestamp dt) else none⟩ := by
  unfold process at hr
  simp only [bind, Option.bind_eq_some, Option.pure_def, Option.some.injEq] at hr
  obtain ⟨dy, hy, mo, hmo, dd, hd, dh, hh, dmi, hmi, ds, hs, dt, hdt, wd, hwd, hrr⟩ := hr
  exact ⟨dy, mo, dd, dh, dmi, ds, dt, wd, hy, hmo, hd, hh, hmi, hs, hdt, hwd, hrr.symm⟩

/-- The `datetime` constructor validates the hour range. -/
theorem mkDatetime_hour_bounds {y : Int} {mo : Nat} {d h mi s : Int} {dt : Datetime}
    (hdt : mkDatetime y mo d h mi s = some dt) : 0 ≤ h ∧ h ≤ 23 := by
  unfold mkDatetime at hdt
  split at hdt
  · rename_i hc
    obtain ⟨_, _, _, _, _, _, h1, h2, _⟩ := hc
    exact ⟨h1, h2⟩
  · exact absurd hdt (by simp)

/-- A period string that lower-cases to neither "pm" nor "am" leaves the
hour unchanged. -/
theorem hour24_not_ampm {h : Int} {p : String}
    (hpm : lowerStr p ≠ "pm") (ham : lowerStr p ≠ "am") :
    hour24 h (some p) = h := by
  unfold hour24
  by_cases hp : p = "" <;> simp [hp, hpm, ham]

/-! ## Claim theorems -/

/-- C1: for every raw mapping with a period field, `process` sets
`hour_24 = hour + 12` when the period lower-cases to "pm", clamping to 12
when `hour + 12` exceeds 23; when the period lower-cases to "am" it sets
`hour_24 = 0` for `hour = 12` and leaves `hour_24 = hour` otherwise
(so noon stays 12 and midnight becomes 0). -/
theorem period_hour24_normalization (off : Int) (pd : RawFields)
    (r : StructuredRecord) (p : String) (h : Int)
    (hper : pd.period = some p) (hh : pyInt pd.hour = some h)
    (hr : process off pd = some r) :
    (lowerStr p = "pm" → r.hour_24 = if h + 12 > 23 then 12 else h + 12) ∧
    (lowerStr p = "am" → r.hour_24 = if h = 12 then 0 else h) := by
  obtain ⟨dy, mo, dd, dh, dmi, ds, dt, wd, hy, hmo, hd, hh2, hmi, hs, hdt, hwd, hrr⟩ :=
    process_eq_some hr
  rw [hh] at hh2
  obtain rfl : h = dh := by injection hh2
  have hh24 : r.hour_24 = hour24 h pd.period := by rw [hrr]
  rw [hper] at hh24
  constructor
  · intro hpm
    have hpne : p ≠ "" := by
      intro he; rw [he] at hpm; exact absurd hpm (by decide)
    rw [hh24]
    simp only [hour24]
    rw [if_neg hpne, if_pos hpm]
    have : lowerStr p ≠ "am" := by rw [hpm]; decide
    simp only [this, false_and, if_false]
  · intro ham
    have hpne : p ≠ "" := by
      intro he; rw [he] at ham; exact absurd ham (by decide)
    have hpm : lowerStr p ≠ "pm" := by rw [ham]; decide
    rw [hh24]
    simp only [hour24]
    rw [if_neg hpne, if_neg hpm]
    by_cases h12 : h = 12
    · simp [h12, ham]
    · simp [h12, ham]

/-- C1 witness: hour 12 with period "PM" yields `hour_24 = 12` (noon
unchanged) and hour 12 with period "AM" yields `hour_24 = 0` (midnight). -/
theorem period_hour24_normalization_witness :
    ((⟨2021, 3, 23, 12, 12, 45, 29, some "PM", "Mar", "Tue", 2, "UTC",
       1616503529, some 1616503529⟩ : StructuredRecord).hour_24 =
      if (12 : Int) + 12 > 23 then 12 else 12 + 12) ∧
    ((⟨2021, 3, 23, 12, 0, 45, 29, some "AM", "Mar", "Tue", 2, "UTC",
       1616460329, some 1616460329⟩ : StructuredRecord).hour_24 =
      if (12 : Int) = 12 then 0 else 12) := by
  constructor
  · exact (period_hour24_normalization 0
      ⟨"2021","Mar","23","Tue","12","45","29","UTC", some "PM"⟩ _ "PM" 12 rfl
      (by decide) (by decide)).1 (by decide)
  · exact (period_hour24_normalization 0
      ⟨"2021","Mar","23","Tue","12","45","29","UTC", some "AM"⟩ _ "AM" 12 rfl
      (by decide) (by decide)).2 (by decide)

/-- C2: for every raw mapping on which `process` succeeds, the output
contains `epoch_utc` iff the raw timezone field is exactly the string
"UTC", and when present it is the POSIX timestamp of
`(year, month_num, day, hour_24, minute, second)` anchored to UTC. -/
theorem epoch_utc_iff_utc (off : Int) (pd : RawFields) (r : StructuredRecord)
    (hr : process off pd = some r) :
    ((∃ v, r.epoch_utc = some v) ↔ pd.timezone = "UTC") ∧
    (∀ v, r.epoch_utc = some v →
      ∃ dt, mkDatetime r.year r.month_num r.day r.hour_24 r.minute r.second = some dt ∧
        v = utcTimestamp dt) := by
  obtain ⟨dy, mo, dd, dh, dmi, ds, dt, wd, hy, hmo, hd, hh2, hmi, hs, hdt, hwd, hrr⟩ :=
    process_eq_some hr
  subst hrr
  constructor
  · by_cases htz : pd.timezone = "UTC" <;> simp [htz]
  · intro v hv
    by_cases htz : pd.timezone = "UTC"
    · refine ⟨dt, hdt, ?_⟩
      simp [htz] at hv
      exact hv.symm
    · simp [htz] at hv

/-- C2 witness: with timezone "UTC" the output carries `epoch_utc`; with
timezone "utc" (or "PST") it does not. -/
theorem epoch_utc_iff_utc_witness :
    (∃ v, (StructuredRecord.epoch_utc
      ⟨2021, 3, 23, 8, 20, 45, 29, some "PM", "Mar", "Tue", 2, "UTC",
       1616532329, some 1616532329⟩) = some v) ∧
    ¬ ∃ v, (StructuredRecord.epoch_utc
      ⟨2021, 3, 23, 8, 20, 45, 29, some "PM", "Mar", "Tue", 2, "utc",
       1616532329, none⟩) = some v := by
  have h1 := (epoch_utc_iff_utc 0
    ⟨"2021","Mar","23","Tue","08","45","29","UTC", some "PM"⟩
    ⟨2021, 3, 23, 8, 20, 45, 29, some "PM", "Mar", "Tue", 2, "UTC",
     1616532329, some 1616532329⟩ (by decide)).1
  have h2 := (epoch_utc_iff_utc 0
    ⟨"2021","Mar","23","Tue","08","45","29","utc", some "PM"⟩
    ⟨2021, 3, 23, 8, 20, 45, 29, some "PM", "Mar", "Tue", 2, "utc",
     1616532329, none⟩ (by decide)).1
  constructor
  · exact h1.mpr (by decide)
  · intro hex
    exact absurd (h2.mp hex) (by decide)

/-- C3 counterexample: the input "Tue Mar 23 08:45:29 Pm UTC 2021" has 9
tokens, one of which ("Pm") case-insensitively equals "pm", yet the
tokenizer does not select the 12-hour layout: it takes the 24-hour branch,
yielding no period field (and year "UTC", timezone "Pm"). -/
theorem mixed_case_period_not_twelve_hour :
    (splitTokens "Tue Mar 23 08:45:29 Pm UTC 2021").length = 9 ∧
    "Pm" ∈ splitTokens "Tue Mar 23 08:45:29 Pm UTC 2021" ∧
    lowerStr "Pm" = "pm" ∧
    tokenize (splitTokens "Tue Mar 23 08:45:29 Pm UTC 2021") =
      some ⟨"UTC", "Mar", "23", "Tue", "08", "45", "29", "Pm", none⟩ := by
  decide

/-- C3 amended: for every token sequence of exactly 9 tokens at least one
of which is exactly one of the four strings "AM", "am", "PM", "pm" (not
merely case-insensitively equal), the tokenizer selects the 12-hour layout
with weekday=0, month=1, day=2, hour=3, minute=4, second=5, period=6,
timezone=7, year=8. -/
theorem twelve_hour_layout_selection (ts : List String) (h9 : ts.length = 9)
    (hmark : "AM" ∈ ts ∨ "am" ∈ ts ∨ "PM" ∈ ts ∨ "pm" ∈ ts) :
    tokenize ts = some ⟨ts.get ⟨8, by omega⟩, ts.get ⟨1, by omega⟩, ts.get ⟨2, by omega⟩,
      ts.get ⟨0, by omega⟩, ts.get ⟨3, by omega⟩, ts.get ⟨4, by omega⟩,
      ts.get ⟨5, by omega⟩, ts.get ⟨7, by omega⟩, some (ts.get ⟨6, by omega⟩)⟩ := by
  have hc : twelveHourCond ts := ⟨h9, hmark⟩
  simp only [tokenize, if_pos hc]
  rw [List.getElem?_eq_getElem (by omega), List.getElem?_eq_getElem (by omega),
      List.getElem?_eq_getElem (by omega), List.getElem?_eq_getElem (by omega),
      List.getElem?_eq_getElem (by omega), List.getElem?_eq_getElem (by omega),
      List.getElem?_eq_getElem (by omega), List.getElem?_eq_getElem (by omega),
      List.getElem?_eq_getElem (by omega)]
  rfl

/-- C3 amended witness: the 12-hour layout is selected on the exact-case
marker "PM". -/
theorem twelve_hour_layout_selection_witness :
    tokenize ["Tue","Mar","23","08","45","29","PM","UTC","2021"] =
      some ⟨"2021", "Mar", "23", "Tue", "08", "45", "29", "UTC", some "PM"⟩ := by
  exact twelve_hour_layout_selection
    ["Tue","Mar","23","08","45","29","PM","UTC","2021"] (by decide)
    (by decide)

/-- C4: parsing "Tue Mar 23 08:45:29 PM UTC 2021" in processed mode yields
year 2021, month_num 3, day 23, hour 8, hour_24 20, minute 45, second 29,
period "PM", month "Mar", weekday "Tue", weekday_num 2, timezone "UTC",
epoch_utc 1616532329, and an epoch value that depends on the host local
offset (here `1616532329 - off`). -/
theorem scenario_twelve_hour (off : Int) :
    parse off "Tue Mar 23 08:45:29 PM UTC 2021" =
      ParseOut.record ⟨2021, 3, 23, 8, 20, 45, 29, some "PM", "Mar", "Tue", 2,
        "UTC", 1616532329 - off, some 1616532329⟩ := by
  rfl

/-- Helper: the 24-hour branch of the tokenizer on at least 8 tokens. -/
theorem tokenize_24h (ts : List String) (hc : ¬ twelveHourCond ts)
    (h8 : 8 ≤ ts.length) :
    tokenize ts = some ⟨ts.get ⟨7, by omega⟩, ts.get ⟨1, by omega⟩, ts.get ⟨2, by omega⟩,
      ts.get ⟨0, by omega⟩, ts.get ⟨3, by omega⟩, ts.get ⟨4, by omega⟩,
      ts.get ⟨5, by omega⟩, ts.get ⟨6, by omega⟩, none⟩ := by
  simp only [tokenize, if_neg hc]
  rw [List.getElem?_eq_getElem (by omega), List.getElem?_eq_getElem (by omega),
      List.getElem?_eq_getElem (by omega), List.getElem?_eq_getElem (by omega),
      List.getElem?_eq_getElem (by omega), List.getElem?_eq_getElem (by omega),
      List.getElem?_eq_getElem (by omega), List.getElem?_eq_getElem (by omega)]
  rfl

/-- Helper: the 24-hour branch only reads the first 8 tokens. -/
theorem tokenize_24h_take (ts : List String) (hc : ¬ twelveHourCond ts)
    (h8 : 8 ≤ ts.length) :
    tokenize ts = tokenize (ts.take 8) := by
  have hlen : (ts.take 8).length = 8 := by simp [List.length_take]; omega
  have hc2 : ¬ twelveHourCond (ts.take 8) := by
    intro h; rw [twelveHourCond, hlen] at h; omega
  rw [tokenize_24h ts hc h8, tokenize_24h (ts.take 8) hc2 (by omega)]
  simp [List.getElem_take']

/-- Helper: with fewer than 8 tokens the 24-hour branch raises an
IndexError on `split_data[7]`. -/
theorem tokenize_24h_short (ts : List String) (hc : ¬ twelveHourCond ts)
    (hlt : ts.length < 8) : tokenize ts = none := by
  simp only [tokenize, if_neg hc]
  rw [List.getElem?_eq_none (by omega)]
  rfl

/-- C5: whenever the 12-hour condition fails, the tokenizer applies the
positional 24-hour extraction regardless of token count — weekday=0,
month=1, day=2, hour=3, minute=4, second=5, timezone=6, year=7, no period
key, tokens past index 7 ignored (with fewer than 8 tokens the positional
extraction itself fails); and on any raw mapping without a period key,
`process` outputs `period = none` and `hour = hour_24`. -/
theorem twentyfour_hour_layout :
    (∀ ts : List String, ¬ twelveHourCond ts → ∀ h8 : 8 ≤ ts.length,
      tokenize ts = some ⟨ts.get ⟨7, by omega⟩, ts.get ⟨1, by omega⟩,
        ts.get ⟨2, by omega⟩, ts.get ⟨0, by omega⟩, ts.get ⟨3, by omega⟩,
        ts.get ⟨4, by omega⟩, ts.get ⟨5, by omega⟩, ts.get ⟨6, by omega⟩, none⟩ ∧
      tokenize ts = tokenize (ts.take 8)) ∧
    (∀ ts : List String, ¬ twelveHourCond ts → ts.length < 8 →
      tokenize ts = none) ∧
    (∀ (off : Int) (pd : RawFields) (r : StructuredRecord), pd.period = none →
      process off pd = some r → r.period = none ∧ r.hour = r.hour_24) := by
  refine ⟨fun ts hc h8 => ⟨tokenize_24h ts hc h8, tokenize_24h_take ts hc h8⟩,
    fun ts hc hlt => tokenize_24h_short ts hc hlt,
    fun off pd r hper hr => ?_⟩
  obtain ⟨dy, mo, dd, dh, dmi, ds, dt, wd, hy, hmo, hd, hh2, hmi, hs, hdt, hwd, hrr⟩ :=
    process_eq_some hr
  subst hrr
  rw [hper]
  exact ⟨rfl, rfl⟩

/-- C5 witness: an 8-token 24-hour input maps positionally; a 2-token
input fails; a period-free mapping processes with `period = none` and
`hour = hour_24`. -/
theorem twentyfour_hour_layout_witness :
    tokenize ["Tue","Mar","23","20","45","29","UTC","2021"] =
      some ⟨"2021","Mar","23","Tue","20","45","29","UTC", none⟩ ∧
    tokenize ["Tue","Mar"] = none ∧
    ((⟨2021, 3, 23, 20, 20, 45, 29, none, "Mar", "Tue", 2, "UTC",
       1616532329, some 1616532329⟩ : StructuredRecord).period = none ∧
     (⟨2021, 3, 23, 20, 20, 45, 29, none, "Mar", "Tue", 2, "UTC",
       1616532329, some 1616532329⟩ : StructuredRecord).hour =
     (⟨2021, 3, 23, 20, 20, 45, 29, none, "Mar", "Tue", 2, "UTC",
       1616532329, some 1616532329⟩ : StructuredRecord).hour_24) := by
  refine ⟨?_, ?_, ?_⟩
  · exact (twentyfour_hour_layout.1
      ["Tue","Mar","23","20","45","29","UTC","2021"] (by decide) (by decide)).1
  · exact twentyfour_hour_layout.2.1 ["Tue","Mar"] (by decide) (by decide)
  · exact twentyfour_hour_layout.2.2 0
      ⟨"2021","Mar","23","Tue","20","45","29","UTC", none⟩ _ rfl (by decide)

/-- C6 counterexample: `process` accepts a signed year "+2021" and a
whitespace-padded hour " 08 " rather than failing: Python `int` tolerates
a leading sign and surrounding whitespace. -/
theorem signed_year_accepted :
    pyInt "+2021" = some 2021 ∧ pyInt " 08 " = some 8 ∧
    process 0 ⟨"+2021","Mar","23","Tue"," 08 ","45","29","UTC", none⟩ =
      some ⟨2021, 3, 23, 8, 8, 45, 29, none, "Mar", "Tue", 2, "UTC",
            1616489129, some 1616489129⟩ := by
  decide

/-- C6 amended: `process` parses year, day, hour, minute and second with
Python `int` semantics, which tolerate an optional leading sign and
leading/trailing whitespace (and underscores between digits) and fail on
any other non-digit content; a field that fails to parse makes `process`
fail. -/
theorem numeric_field_parsing :
    (∀ (off : Int) (pd : RawFields), pyInt pd.year = none →
      process off pd = none) ∧
    pyInt "+2021" = some 2021 ∧ pyInt " 08 " = some 8 ∧
    pyInt "-5" = some (-5) ∧ pyInt "1_0" = some 10 ∧
    pyInt "x12" = none ∧ pyInt "1x2" = none ∧ pyInt "12x" = none ∧
    pyInt "" = none ∧ pyInt "+" = none ∧ pyInt "++1" = none ∧
    pyInt "1.5" = none := by
  refine ⟨fun off pd hy => ?_, by decide, by decide, by decide, by decide,
    by decide, by decide, by decide, by decide, by decide, by decide, by decide⟩
  unfold process
  rw [hy]
  rfl

/-- C6 amended witness: a non-numeric year makes `process` fail. -/
theorem numeric_field_parsing_witness :
    process 0 ⟨"twentytwentyone","Mar","23","Tue","08","45","29","UTC", none⟩ =
      none := by
  exact numeric_field_parsing.1 0
    ⟨"twentytwentyone","Mar","23","Tue","08","45","29","UTC", none⟩ (by decide)

/-- C7 counterexample: with the period key present but empty, `process`
succeeds with `hour_24 = hour` but emits `period` as the empty string
(`''.upper()`), not as null. -/
theorem empty_period_not_null :
    process 0 ⟨"2021","Mar","23","Tue","8","45","29","UTC", some ""⟩ =
      some ⟨2021, 3, 23, 8, 8, 45, 29, some "", "Mar", "Tue", 2, "UTC",
            1616489129, some 1616489129⟩ ∧
    (some "" : Option String) ≠ none := by
  decide

/-- C7 amended: for every raw mapping whose period key is present with an
empty string value, `process` leaves `hour_24` equal to `hour` and emits
the output period field as the empty string (the upper-cased original),
not as null. -/
theorem empty_period_behavior (off : Int) (pd : RawFields) (r : StructuredRecord)
    (hper : pd.period = some "") (hr : process off pd = some r) :
    r.hour_24 = r.hour ∧ r.period = some "" := by
  obtain ⟨dy, mo, dd, dh, dmi, ds, dt, wd, hy, hmo, hd, hh2, hmi, hs, hdt, hwd, hrr⟩ :=
    process_eq_some hr
  subst hrr
  rw [hper]
  constructor
  · simp [hour24]
  · simp [upperStr]

/-- C7 amended witness: concrete empty-period input. -/
theorem empty_period_behavior_witness :
    (⟨2021, 3, 23, 8, 8, 45, 29, some "", "Mar", "Tue", 2, "UTC",
      1616489129, some 1616489129⟩ : StructuredRecord).hour_24 =
    (⟨2021, 3, 23, 8, 8, 45, 29, some "", "Mar", "Tue", 2, "UTC",
      1616489129, some 1616489129⟩ : StructuredRecord).hour ∧
    (⟨2021, 3, 23, 8, 8, 45, 29, some "", "Mar", "Tue", 2, "UTC",
      1616489129, some 1616489129⟩ : StructuredRecord).period = some "" := by
  exact empty_period_behavior 0 ⟨"2021","Mar","23","Tue","8","45","29","UTC", some ""⟩
    _ rfl (by decide)

/-- C8: for every raw mapping on which `process` succeeds, the output
`hour_24` lies in [0,23] (enforced by the `datetime` constructor), and the
output `hour` equals the integer parsed from the raw hour string,
unmodified by the 12-to-24-hour normalization. -/
theorem hour24_range_hour_preserved (off : Int) (pd : RawFields)
    (r : StructuredRecord) (hr : process off pd = some r) :
    0 ≤ r.hour_24 ∧ r.hour_24 ≤ 23 ∧ pyInt pd.hour = some r.hour := by
  obtain ⟨dy, mo, dd, dh, dmi, ds, dt, wd, hy, hmo, hd, hh2, hmi, hs, hdt, hwd, hrr⟩ :=
    process_eq_some hr
  subst hrr
  obtain ⟨hb1, hb2⟩ := mkDatetime_hour_bounds hdt
  exact ⟨hb1, hb2, hh2⟩

/-- C8 witness: raw hour "08" with period "PM" gives `hour = 8` while
`hour_24 = 20 ∈ [0,23]`. -/
theorem hour24_range_hour_preserved_witness :
    (0 ≤ (⟨2021, 3, 23, 8, 20, 45, 29, some "PM", "Mar", "Tue", 2, "UTC",
          1616532329, some 1616532329⟩ : StructuredRecord).hour_24) ∧
    ((⟨2021, 3, 23, 8, 20, 45, 29, some "PM", "Mar", "Tue", 2, "UTC",
       1616532329, some 1616532329⟩ : StructuredRecord).hour_24 ≤ 23) ∧
    pyInt "08" = some (⟨2021, 3, 23, 8, 20, 45, 29, some "PM", "Mar", "Tue", 2,
      "UTC", 1616532329, some 1616532329⟩ : StructuredRecord).hour := by
  exact hour24_range_hour_preserved 0
    ⟨"2021","Mar","23","Tue","08","45","29","UTC", some "PM"⟩ _ (by decide)

/-- C9: every empty, blank, or whitespace-only input yields the empty
mapping in both processed and raw modes, with no error. -/
theorem blank_input_empty (data : String) (off : Int)
    (hblank : ∀ c ∈ data.toList, c.isWhitespace) :
    parse off data = ParseOut.empty ∧ parseRaw data = RawOut.empty := by
  have hnd : hasData data = false := by
    simp only [hasData, List.any_eq_false, Bool.not_eq_true']
    intro c hc
    simpa using hblank c hc
  constructor
  · simp [parse, hnd]
  · simp [parseRaw, hnd]

/-- C9 witness: a whitespace-only input. -/
theorem blank_input_empty_witness :
    parse 0 "  " = ParseOut.empty ∧ parseRaw "  " = RawOut.empty := by
  exact blank_input_empty "  " 0 (by decide)

/-- C10: for every raw mapping whose period field is present and non-empty
but lower-cases to neither "am" nor "pm", `process` does not reject it for
that reason: its result is exactly the result on the same mapping without
a period key — so `hour_24` stays equal to `hour` — with the output period
field set to the upper-cased original string. -/
theorem unknown_period_accepted (off : Int) (pd : RawFields) (p : String)
    (hper : pd.period = some p) (hne : p ≠ "")
    (hpm : lowerStr p ≠ "pm") (ham : lowerStr p ≠ "am") :
    process off pd = (process off { pd with period := none }).map
      (fun r => { r with period := some (upperStr p) }) ∧
    (∀ r, process off pd = some r → r.hour_24 = r.hour ∧
      r.period = some (upperStr p)) := by
  have key : process off pd = (process off { pd with period := none }).map
      (fun r => { r with period := some (upperStr p) }) := by
    unfold process
    cases hy : pyInt pd.year with
    | none => simp [hy]
    | some dy =>
      cases hmo : month_map pd.month with
      | none => simp [hy, hmo]
      | some mo =>
        cases hd : pyInt pd.day with
        | none => simp [hy, hmo, hd]
        | some dd =>
          cases hh : pyInt pd.hour with
          | none => simp [hy, hmo, hd, hh]
          | some dh =>
            cases hmi : pyInt pd.minute with
            | none => simp [hy, hmo, hd, hh, hmi]
            | some dmi =>
              cases hs : pyInt pd.second with
              | none => simp [hy, hmo, hd, hh, hmi, hs]
              | some ds =>
                have h24a : hour24 dh (some p) = dh := hour24_not_ampm hpm ham
                have h24b : hour24 dh none = dh := rfl
                simp only [hper, Option.bind_eq_bind, Option.some_bind,
                  Option.pure_def, h24a, h24b]
                cases hdt : mkDatetime dy mo dd dh dmi ds with
                | none => simp
                | some dt =>
                  cases hwd : weekday_map pd.weekday with
                  | none => simp
                  | some wd => simp
  refine ⟨key, fun r hr => ?_⟩
  obtain ⟨dy, mo, dd, dh, dmi, ds, dt, wd, hy, hmo, hd, hh2, hmi, hs, hdt, hwd, hrr⟩ :=
    process_eq_some hr
  subst hrr
  rw [hper]
  constructor
  · simp only [hper]
    exact hour24_not_ampm hpm ham
  · simp

/-- C10 witness: period "XX" is not rejected; the output period is "XX"
and `hour_24 = hour`. -/
theorem unknown_period_accepted_witness :
    process 0 ⟨"2021","Mar","23","Tue","8","45","29","UTC", some "XX"⟩ =
      (process 0 ⟨"2021","Mar","23","Tue","8","45","29","UTC", none⟩).map
        (fun r => { r with period := some (upperStr "XX") }) ∧
    ((⟨2021, 3, 23, 8, 8, 45, 29, some "XX", "Mar", "Tue", 2, "UTC",
       1616489129, some 1616489129⟩ : StructuredRecord).hour_24 =
     (⟨2021, 3, 23, 8, 8, 45, 29, some "XX", "Mar", "Tue", 2, "UTC",
       1616489129, some 1616489129⟩ : StructuredRecord).hour ∧
     (⟨2021, 3, 23, 8, 8, 45, 29, some "XX", "Mar", "Tue", 2, "UTC",
       1616489129, some 1616489129⟩ : StructuredRecord).period =
       some (upperStr "XX")) := by
  have h := unknown_period_accepted 0
    ⟨"2021","Mar","23","Tue","8","45","29","UTC", some "XX"⟩ "XX" rfl
    (by decide) (by decide) (by decide)
  exact ⟨h.1, h.2 _ (by decide)⟩
